import Mathlib

/-!
Verification of the `wrk` CLI (a workspace/project launcher) against its
design specification.  The TypeScript sources `src/command-router.ts`,
`src/index.ts` and `src/utils.ts` are shallowly embedded below: pure
functions become Lean functions, the stateful application flows become
explicit state passing over a `St` record together with an event trace,
and thrown JS `Error`s become `Except String` results.
-/

set_option maxRecDepth 10000

namespace Wrk

/-- JS truthiness of a `string | undefined` value: `undefined` and the empty
string are falsy, every other string is truthy.  The router tests its
`workspaceName` / `projectName` slots with `!x`, which is exactly this. -/
def jsFalsy : Option String → Bool
  | none => true
  | some s => decide (s = "")

/-- `flags?.ide || this.config.ide` style JS defaulting: an absent or empty
string falls back to the default. -/
def jsOrStr : Option String → String → String
  | none, d => d
  | some s, d => if s = "" then d else s

/-! ## Command router (`src/command-router.ts`) -/

inductive CmdType where
  | help | version | configPath | config | list | create | workspace | last | cd
deriving DecidableEq

structure Flags where
  project : Option String := none
  json : Bool := false
  dryRun : Bool := false
  ide : Option String := none
  get : Option String := none
  set : Option String := none
  edit : Bool := false
deriving DecidableEq

structure Command where
  type : CmdType
  workspaceName : Option String := none
  projectName : Option String := none
  flags : Option Flags := none
deriving DecidableEq

/-- The flag/positional scan of `parseCommand` (the `for` loop over
`args[1..]`): `--json` and `--dry-run` set boolean flags, `--project`/`-p`
and `--ide`/`-i` consume the following token (throwing when there is none),
and any other token fills `workspaceName` then `projectName`, where a slot
still counts as unset while it holds a falsy (empty) string. -/
def scanArgs : List String → Flags → Option String → Option String →
    Except String (Flags × Option String × Option String)
  | [], fl, ws, pj => .ok (fl, ws, pj)
  | a :: rest, fl, ws, pj =>
    if a = "--json" then scanArgs rest { fl with json := true } ws pj
    else if a = "--dry-run" then scanArgs rest { fl with dryRun := true } ws pj
    else if a = "--project" ∨ a = "-p" then
      match rest with
      | [] => .error "--project/-p requires a project name"
      | v :: rest2 => scanArgs rest2 { fl with project := some v } ws pj
    else if a = "--ide" ∨ a = "-i" then
      match rest with
      | [] => .error "--ide/-i requires an IDE command"
      | v :: rest2 => scanArgs rest2 { fl with ide := some v } ws pj
    else if jsFalsy ws then scanArgs rest fl (some a) pj
    else if jsFalsy pj then scanArgs rest fl ws (some a)
    else scanArgs rest fl ws pj

/-- `parseCommand` from `src/command-router.ts`.  Thrown `Error`s are
modelled as `Except.error` carrying the message. -/
def parseCommand : List String → Except String Command
  | [] => .ok { type := .last }
  | a0 :: rest =>
    if a0 = "--help" ∨ a0 = "-h" then .ok { type := .help }
    else if a0 = "--version" ∨ a0 = "-v" then .ok { type := .version }
    else if a0 = "--config-path" then .ok { type := .configPath }
    else
      match scanArgs rest {} none none with
      | .error e => .error e
      | .ok (fl, ws, pj) =>
        if a0 = "config" then
          match rest with
          | "--get" :: rest1 =>
            if jsFalsy rest1.head? then .error "Usage: wrk config --get <key>"
            else .ok { type := .config, flags := some { fl with get := rest1.head? } }
          | "--set" :: rest1 =>
            if jsFalsy rest1.head? then .error "Usage: wrk config --set <key>=<value>"
            else .ok { type := .config, flags := some { fl with set := rest1.head? } }
          | "--edit" :: _ => .ok { type := .config, flags := some { fl with edit := true } }
          | _ => .ok { type := .config, flags := some fl }
        else if a0 = "list" then
          .ok { type := .list, workspaceName := ws, flags := some fl }
        else if a0 = "create" then
          if jsFalsy ws then .error "Usage: wrk create <workspace> [project]"
          else .ok { type := .create, workspaceName := ws, projectName := pj, flags := some fl }
        else if a0 = "cd" then
          if jsFalsy ws ∨ jsFalsy pj then .error "Usage: wrk cd <workspace> <project>"
          else .ok { type := .cd, workspaceName := ws, projectName := pj, flags := some fl }
        else
          .ok { type := .workspace, workspaceName := some a0, flags := some fl }

/-! ## The usage-error condition claimed by the spec (C2)

These definitions restate, independently of the parser's recursion, when a
`UsageError` is claimed to be thrown: a value-bearing flag reached by the
scan at end of input, `config --get`/`--set` lacking its argument, or a
missing required positional for `create`/`cd` (a positional counts as
given only when some non-empty token fills the slot). -/

def valueFlag (a : String) : Bool :=
  decide (a = "--project" ∨ a = "-p" ∨ a = "--ide" ∨ a = "-i")

def skipFlag (a : String) : Bool :=
  decide (a = "--json" ∨ a = "--dry-run")

/-- A value-bearing flag is reached by the left-to-right scan as the last
token, with value flags consuming the token after them. -/
def danglingValueFlag : List String → Bool
  | [] => false
  | a :: rest =>
    if valueFlag a then
      match rest with
      | [] => true
      | _ :: rest2 => danglingValueFlag rest2
    else danglingValueFlag rest

/-- The tokens the scan treats as positionals: everything that is neither a
boolean flag nor a value flag, with each value flag swallowing its
following token. -/
def positionalTokens : List String → List String
  | [] => []
  | a :: rest =>
    if valueFlag a then
      match rest with
      | [] => []
      | _ :: rest2 => positionalTokens rest2
    else if skipFlag a then positionalTokens rest
    else a :: positionalTokens rest

/-- Positional tokens that actually name something (non-empty): only these
can satisfy a required `workspaceName`/`projectName` positional. -/
def namedPositionals (rest : List String) : List String :=
  (positionalTokens rest).filter (fun s => decide (s ≠ ""))

/-- `config --get`/`config --set` lacking its argument (absent or empty). -/
def missingConfigArg (a0 : String) (rest : List String) : Bool :=
  decide (a0 = "config") &&
    (match rest with
     | sub :: rest1 => decide (sub = "--get" ∨ sub = "--set") && jsFalsy rest1.head?
     | [] => false)

/-- The condition of claim C2: exactly the argument sequences for which the
spec says parsing fails with a `UsageError`. -/
def usageErrorCondition : List String → Bool
  | [] => false
  | a0 :: rest =>
    !(decide (a0 = "--help" ∨ a0 = "-h" ∨ a0 = "--version" ∨ a0 = "-v" ∨ a0 = "--config-path")) &&
    (danglingValueFlag rest ||
     missingConfigArg a0 rest ||
     (decide (a0 = "create") && (namedPositionals rest).isEmpty) ||
     (decide (a0 = "cd") && decide ((namedPositionals rest).length < 2)))

def isUsageError : Except String Command → Bool
  | .error _ => true
  | .ok _ => false

/-- Falsiness of the workspace slot after scanning `rest`, starting from a
slot of falsiness `wsF`: it stays falsy exactly when it was falsy and no
non-empty positional arrives. -/
def finalWsFalsy (rest : List String) (wsF : Bool) : Bool :=
  wsF && (namedPositionals rest).isEmpty

/-- Falsiness of the project slot after scanning `rest`: with a falsy
workspace slot the first non-empty positional goes to the workspace, so the
project slot stays falsy exactly when at most one non-empty positional
arrives; with an occupied workspace slot it stays falsy exactly when it was
falsy and no non-empty positional arrives. -/
def finalPjFalsy (rest : List String) (wsF pjF : Bool) : Bool :=
  if wsF then pjF && decide ((namedPositionals rest).length ≤ 1)
  else pjF && (namedPositionals rest).isEmpty

theorem jsFalsy_none : jsFalsy none = true := rfl

theorem jsFalsy_some (s : String) : jsFalsy (some s) = decide (s = "") := rfl

theorem isEmpty_eq_decide {α : Type} [DecidableEq α] (l : List α) : l.isEmpty = decide (l = []) := by
  cases l <;> simp

theorem decide_succ_le_one {α : Type} [DecidableEq α] (l : List α) :
    decide (l.length + 1 ≤ 1) = decide (l = []) := by
  cases l <;> simp

theorem scanArgs_characterization :
    ∀ (rest : List String) (fl : Flags) (ws pj : Option String),
    (danglingValueFlag rest = true → ∃ e, scanArgs rest fl ws pj = Except.error e) ∧
    (danglingValueFlag rest = false → ∃ out, scanArgs rest fl ws pj = Except.ok out ∧
      jsFalsy out.2.1 = finalWsFalsy rest (jsFalsy ws) ∧
      jsFalsy out.2.2 = finalPjFalsy rest (jsFalsy ws) (jsFalsy pj))
  | [], fl, ws, pj => by
    refine ⟨fun h => by simp [danglingValueFlag] at h,
            fun _ => ⟨(fl, ws, pj), rfl, ?_, ?_⟩⟩
    · simp [finalWsFalsy, namedPositionals, positionalTokens]
    · simp only [finalPjFalsy, namedPositionals, positionalTokens]
      split <;> simp
  | a :: rest, fl, ws, pj => by
    rcases eq_or_ne a "--json" with h1 | h1
    · subst h1
      have e1 : scanArgs ("--json" :: rest) fl ws pj =
          scanArgs rest { fl with json := true } ws pj := by
        rw [scanArgs.eq_def]; simp
      have e2 : danglingValueFlag ("--json" :: rest) = danglingValueFlag rest := by
        rw [danglingValueFlag.eq_def]; simp [valueFlag]
      have e3 : positionalTokens ("--json" :: rest) = positionalTokens rest := by
        rw [positionalTokens.eq_def]; simp [valueFlag, skipFlag]
      simpa [e1, e2, finalWsFalsy, finalPjFalsy, namedPositionals, e3]
        using scanArgs_characterization rest { fl with json := true } ws pj
    rcases eq_or_ne a "--dry-run" with h2 | h2
    · subst h2
      have e1 : scanArgs ("--dry-run" :: rest) fl ws pj =
          scanArgs rest { fl with dryRun := true } ws pj := by
        rw [scanArgs.eq_def]; simp
      have e2 : danglingValueFlag ("--dry-run" :: rest) = danglingValueFlag rest := by
        rw [danglingValueFlag.eq_def]; simp [valueFlag]
      have e3 : positionalTokens ("--dry-run" :: rest) = positionalTokens rest := by
        rw [positionalTokens.eq_def]; simp [valueFlag, skipFlag]
      simpa [e1, e2, finalWsFalsy, finalPjFalsy, namedPositionals, e3]
        using scanArgs_characterization rest { fl with dryRun := true } ws pj
    have hproj : a = "--project" ∨ a = "-p" →
        (danglingValueFlag (a :: rest) = true → ∃ e, scanArgs (a :: rest) fl ws pj = Except.error e) ∧
        (danglingValueFlag (a :: rest) = false → ∃ out, scanArgs (a :: rest) fl ws pj = Except.ok out ∧
          jsFalsy out.2.1 = finalWsFalsy (a :: rest) (jsFalsy ws) ∧
          jsFalsy out.2.2 = finalPjFalsy (a :: rest) (jsFalsy ws) (jsFalsy pj)) := by
      intro hp
      have hne1 : a ≠ "--json" := by rcases hp with h | h <;> simp [h]
      have hne2 : a ≠ "--dry-run" := by rcases hp with h | h <;> simp [h]
      have hvf : valueFlag a = true := by
        rcases hp with h | h <;> simp [valueFlag, h]
      cases rest with
      | nil =>
        have edang : danglingValueFlag [a] = true := by
          rw [danglingValueFlag.eq_def]; simp [hvf]
        have escan : scanArgs [a] fl ws pj =
            Except.error "--project/-p requires a project name" := by
          rw [scanArgs.eq_def]; simp [hne1, hne2, hp]
        exact ⟨fun _ => ⟨_, escan⟩, fun h => by simp [edang] at h⟩
      | cons v rest2 =>
        have e1 : scanArgs (a :: v :: rest2) fl ws pj =
            scanArgs rest2 { fl with project := some v } ws pj := by
          rw [scanArgs.eq_def]; simp [hne1, hne2, hp]
        have e2 : danglingValueFlag (a :: v :: rest2) = danglingValueFlag rest2 := by
          rw [danglingValueFlag.eq_def]; simp [hvf]
        have e3 : positionalTokens (a :: v :: rest2) = positionalTokens rest2 := by
          rw [positionalTokens.eq_def]; simp [hvf]
        simpa [e1, e2, finalWsFalsy, finalPjFalsy, namedPositionals, e3]
          using scanArgs_characterization rest2 { fl with project := some v } ws pj
    rcases eq_or_ne a "--project" with h3 | h3
    · exact hproj (Or.inl h3)
    rcases eq_or_ne a "-p" with h4 | h4
    · exact hproj (Or.inr h4)
    have hide : a = "--ide" ∨ a = "-i" →
        (danglingValueFlag (a :: rest) = true → ∃ e, scanArgs (a :: rest) fl ws pj = Except.error e) ∧
        (danglingValueFlag (a :: rest) = false → ∃ out, scanArgs (a :: rest) fl ws pj = Except.ok out ∧
          jsFalsy out.2.1 = finalWsFalsy (a :: rest) (jsFalsy ws) ∧
          jsFalsy out.2.2 = finalPjFalsy (a :: rest) (jsFalsy ws) (jsFalsy pj)) := by
      intro hp
      have hne1 : a ≠ "--json" := by rcases hp with h | h <;> simp [h]
      have hne2 : a ≠ "--dry-run" := by rcases hp with h | h <;> simp [h]
      have hne3 : ¬(a = "--project" ∨ a = "-p") := by
        rcases hp with h | h <;> simp [h]
      have hvf : valueFlag a = true := by
        rcases hp with h | h <;> simp [valueFlag, h]
      cases rest with
      | nil =>
        have edang : danglingValueFlag [a] = true := by
          rw [danglingValueFlag.eq_def]; simp [hvf]
        have escan : scanArgs [a] fl ws pj =
            Except.error "--ide/-i requires an IDE command" := by
          rw [scanArgs.eq_def]; simp [hne1, hne2, hne3, hp]
        exact ⟨fun _ => ⟨_, escan⟩, fun h => by simp [edang] at h⟩
      | cons v rest2 =>
        have e1 : scanArgs (a :: v :: rest2) fl ws pj =
            scanArgs rest2 { fl with ide := some v } ws pj := by
          rw [scanArgs.eq_def]; simp [hne1, hne2, hne3, hp]
        have e2 : danglingValueFlag (a :: v :: rest2) = danglingValueFlag rest2 := by
          rw [danglingValueFlag.eq_def]; simp [hvf]
        have e3 : positionalTokens (a :: v :: rest2) = positionalTokens rest2 := by
          rw [positionalTokens.eq_def]; simp [hvf]
        simpa [e1, e2, finalWsFalsy, finalPjFalsy, namedPositionals, e3]
          using scanArgs_characterization rest2 { fl with ide := some v } ws pj
    rcases eq_or_ne a "--ide" with h5 | h5
    · exact hide (Or.inl h5)
    rcases eq_or_ne a "-i" with h6 | h6
    · exact hide (Or.inr h6)
    -- `a` is a positional token (possibly empty)
    have hvf : valueFlag a = false := by simp [valueFlag, h3, h4, h5, h6]
    have hsf : skipFlag a = false := by simp [skipFlag, h1, h2]
    have hscan : scanArgs (a :: rest) fl ws pj =
        (if jsFalsy ws then scanArgs rest fl (some a) pj
         else if jsFalsy pj then scanArgs rest fl ws (some a)
         else scanArgs rest fl ws pj) := by
      rw [scanArgs.eq_def]; simp [h1, h2, h3, h4, h5, h6]
    have hdang : danglingValueFlag (a :: rest) = danglingValueFlag rest := by
      rw [danglingValueFlag.eq_def]; simp [hvf]
    have hpt : positionalTokens (a :: rest) = a :: positionalTokens rest := by
      rw [positionalTokens.eq_def]; simp [hvf, hsf]
    have hnamed : namedPositionals (a :: rest) =
        (if a = "" then namedPositionals rest else a :: namedPositionals rest) := by
      simp only [namedPositionals, hpt, List.filter_cons]
      split
      · next hcond =>
        have : a ≠ "" := by simpa using hcond
        simp [this]
      · next hcond =>
        have : a = "" := by simpa using hcond
        simp [this]
    cases hws : jsFalsy ws with
    | true =>
      -- workspace slot still unset: the token lands there
      have IH := scanArgs_characterization rest fl (some a) pj
      rcases eq_or_ne a "" with ha | ha
      · subst ha
        simpa [hscan, hws, hdang, hnamed, finalWsFalsy, finalPjFalsy, jsFalsy_some,
               decide_succ_le_one, isEmpty_eq_decide] using IH
      · simpa [hscan, hws, hdang, hnamed, finalWsFalsy, finalPjFalsy, jsFalsy_some, ha,
               decide_succ_le_one, isEmpty_eq_decide] using IH
    | false =>
      cases hpj : jsFalsy pj with
      | true =>
        -- workspace set, project slot unset: the token lands in the project slot
        have IH := scanArgs_characterization rest fl ws (some a)
        rcases eq_or_ne a "" with ha | ha
        · subst ha
          simpa [hscan, hws, hpj, hdang, hnamed, finalWsFalsy, finalPjFalsy, jsFalsy_some,
                 decide_succ_le_one, isEmpty_eq_decide] using IH
        · simpa [hscan, hws, hpj, hdang, hnamed, finalWsFalsy, finalPjFalsy, jsFalsy_some, ha,
                 decide_succ_le_one, isEmpty_eq_decide] using IH
      | false =>
        -- both slots set: the token is ignored
        have IH := scanArgs_characterization rest fl ws pj
        rcases eq_or_ne a "" with ha | ha
        · subst ha
          simpa [hscan, hws, hpj, hdang, hnamed, finalWsFalsy, finalPjFalsy, jsFalsy_some,
                 decide_succ_le_one, isEmpty_eq_decide] using IH
        · simpa [hscan, hws, hpj, hdang, hnamed, finalWsFalsy, finalPjFalsy, jsFalsy_some, ha,
                 decide_succ_le_one, isEmpty_eq_decide] using IH
  termination_by rest _ _ _ => rest.length

theorem isUsageError_ok (k : Command) : isUsageError (Except.ok k) = false := rfl

theorem isUsageError_iteB (b : Bool) (e : String) (k : Command) :
    isUsageError (if b then Except.error e else Except.ok k) = b := by
  cases b <;> simp [isUsageError]

theorem isUsageError_iteOr (b c : Bool) (e : String) (k : Command) :
    isUsageError (if (b ∨ c) then Except.error e else Except.ok k) = (b || c) := by
  cases b <;> cases c <;> simp [isUsageError]

theorem or_isEmpty_le_one (l : List String) :
    (decide (l = []) || decide (l.length ≤ 1)) = decide (l.length < 2) := by
  cases l with
  | nil => simp
  | cons x xs =>
    simp only [List.length_cons]
    rw [show (decide ((x :: xs : List String) = [])) = false by simp]
    simp only [Bool.false_or]
    exact decide_eq_decide.mpr (by omega)

/-- C2: `parseCommand` throws a `UsageError` exactly when a value-bearing
flag (`--project`/`-p`, `--ide`/`-i`) is reached by the scan as the last
token, or `config --get`/`config --set` lacks its argument, or `create`
has no workspace positional, or `cd` lacks one of its two positionals; on
every other argument sequence it succeeds (unknown flags are absorbed,
never rejected). -/
theorem parseCommand_usageError_exact (args : List String) :
    isUsageError (parseCommand args) = usageErrorCondition args := by
  cases args with
  | nil => rfl
  | cons a0 rest =>
    by_cases hg : a0 = "--help" ∨ a0 = "-h" ∨ a0 = "--version" ∨ a0 = "-v" ∨ a0 = "--config-path"
    · have hcond : usageErrorCondition (a0 :: rest) = false := by
        rw [usageErrorCondition.eq_def]
        simp [hg]
      rw [hcond]
      rcases hg with h | h | h | h | h <;> subst h <;>
        (rw [parseCommand.eq_def]; simp [isUsageError])
    · push_neg at hg
      obtain ⟨hg1, hg2, hg3, hg4, hg5⟩ := hg
      have hcond : usageErrorCondition (a0 :: rest) =
          (danglingValueFlag rest ||
           missingConfigArg a0 rest ||
           (decide (a0 = "create") && (namedPositionals rest).isEmpty) ||
           (decide (a0 = "cd") && decide ((namedPositionals rest).length < 2))) := by
        rw [usageErrorCondition.eq_def]
        simp [hg1, hg2, hg3, hg4, hg5]
      cases hdang : danglingValueFlag rest with
      | true =>
        obtain ⟨e, he⟩ := (scanArgs_characterization rest {} none none).1 hdang
        have hpc : parseCommand (a0 :: rest) = Except.error e := by
          rw [parseCommand.eq_def]
          simp [hg1, hg2, hg3, hg4, hg5, he]
        rw [hpc, hcond, hdang]
        simp [isUsageError]
      | false =>
        obtain ⟨out, hout, hws, hpj⟩ := (scanArgs_characterization rest {} none none).2 hdang
        obtain ⟨fl, ws, pj⟩ := out
        simp only [jsFalsy_none, finalWsFalsy, finalPjFalsy, if_true, Bool.true_and,
          isEmpty_eq_decide] at hws hpj
        rw [hcond, hdang]
        by_cases hc : a0 = "config"
        · subst hc
          cases rest with
          | nil =>
            have hpc : isUsageError (parseCommand ["config"]) = false := rfl
            rw [hpc]
            simp [missingConfigArg]
          | cons sub rest1 =>
            by_cases hs1 : sub = "--get"
            · subst hs1
              have hpc : isUsageError (parseCommand ("config" :: "--get" :: rest1)) =
                  jsFalsy rest1.head? := by
                rw [parseCommand.eq_def]
                simp only [hout]
                simp [isUsageError_iteB, isUsageError]
                cases h : jsFalsy rest1.head? <;> simp [isUsageError]
              rw [hpc]
              simp [missingConfigArg]
            · by_cases hs2 : sub = "--set"
              · subst hs2
                have hpc : isUsageError (parseCommand ("config" :: "--set" :: rest1)) =
                    jsFalsy rest1.head? := by
                  rw [parseCommand.eq_def]
                  simp only [hout]
                  simp [isUsageError]
                  cases h : jsFalsy rest1.head? <;> simp [isUsageError]
                rw [hpc]
                simp [missingConfigArg, hs1]
              · have hpc : isUsageError (parseCommand ("config" :: sub :: rest1)) = false := by
                  rw [parseCommand.eq_def]
                  simp only [hout]
                  by_cases hs3 : sub = "--edit" <;> simp [isUsageError, hs1, hs2, hs3]
                rw [hpc]
                simp [missingConfigArg, hs1, hs2]
        · by_cases hl : a0 = "list"
          · subst hl
            have hpc : isUsageError (parseCommand ("list" :: rest)) = false := by
              rw [parseCommand.eq_def]
              simp only [hout]
              simp [isUsageError]
            rw [hpc]
            simp [missingConfigArg]
          · by_cases hcr : a0 = "create"
            · subst hcr
              have hpc : isUsageError (parseCommand ("create" :: rest)) = jsFalsy ws := by
                rw [parseCommand.eq_def]
                simp only [hout]
                cases h : jsFalsy ws <;> simp [isUsageError, h]
              rw [hpc, hws]
              simp [missingConfigArg, isEmpty_eq_decide]
            · by_cases hcd : a0 = "cd"
              · subst hcd
                have hpc : isUsageError (parseCommand ("cd" :: rest)) =
                    (jsFalsy ws || jsFalsy pj) := by
                  rw [parseCommand.eq_def]
                  simp only [hout]
                  cases h1 : jsFalsy ws <;> cases h2 : jsFalsy pj <;>
                    simp [isUsageError, h1, h2]
                rw [hpc, hws, hpj, or_isEmpty_le_one]
                simp [missingConfigArg]
              · have hpc : isUsageError (parseCommand (a0 :: rest)) = false := by
                  rw [parseCommand.eq_def]
                  simp only [hout]
                  simp [isUsageError, hg1, hg2, hg3, hg4, hg5, hc, hl, hcr, hcd]
                rw [hpc]
                simp [missingConfigArg, hc, hl, hcr, hcd]

/-- C10: an empty-string token assigned to a positional slot leaves the
slot still counting as unset (string truthiness), so in `cd "" x` the scan
binds the workspace slot to `x` (overwriting the empty string), leaves the
project slot unset, and `parseCommand` therefore throws the `cd` usage
error instead of accepting the empty string as the workspace name. -/
theorem parseCommand_empty_positional_quirk :
    scanArgs ["", "x"] {} none none = Except.ok ({}, some "x", none) ∧
    parseCommand ["cd", "", "x"] = Except.error "Usage: wrk cd <workspace> <project>" := by
  exact ⟨rfl, rfl⟩

/-! ## Workspace and project listing (`listWorkspaces` and
`listProjectsInWorkspace` in `src/index.ts`)

The filesystem answers are abstracted as the outcome of the one `readdir`
call (`none` models a failed read) and a stat oracle giving each path's
mtime (`none` models a failed stat).  The JS `Array.prototype.sort` is
modelled by insertion sort: the claims under test only concern sortedness
and content, and tie order is documented as unspecified. -/

structure DirEnt where
  name : String
  isDir : Bool
deriving DecidableEq

structure ProjectInfo where
  name : String
  path : String
  lastAccessed : Int
deriving DecidableEq

/-- Drop `p` from the front of `s` when `p` is a prefix of `s`. -/
def dropLead : List Char → List Char → Option (List Char)
  | [], s => some s
  | _ :: _, [] => none
  | p :: ps, c :: cs => if p = c then dropLead ps cs else none

/-- Split `s` at the first occurrence of `pat`: `some (pre, suf)` with
`s = pre ++ pat ++ suf` and `pre` shortest; `none` when `pat` does not
occur. -/
def splitFirstOcc (pat : List Char) : List Char → Option (List Char × List Char)
  | [] =>
    match dropLead pat [] with
    | some rest => some ([], rest)
    | none => none
  | c :: cs =>
    match dropLead pat (c :: cs) with
    | some rest => some ([], rest)
    | none =>
      match splitFirstOcc pat cs with
      | some (pre, suf) => some (c :: pre, suf)
      | none => none

/-- JS `String.prototype.replace` with a string pattern and empty
replacement: removes only the FIRST occurrence of `pat` (this is what
`entry.name.replace("-work", "")` does). -/
def jsReplaceFirst (s pat : String) : String :=
  match splitFirstOcc pat.data s.data with
  | some (pre, suf) => String.mk (pre ++ suf)
  | none => s

/-- JS `String.prototype.endsWith`. -/
def strEndsWith (s suf : String) : Bool := decide (suf.data <:+ s.data)

/-- `listWorkspaces`: on a failed `readdir` return `[]`; otherwise keep the
directory entries whose name ends with `-work`, replace the first
occurrence of `-work` by the empty string, and sort. -/
def listWorkspacesCore (rd : Option (List DirEnt)) : List String :=
  match rd with
  | none => []
  | some entries =>
    let names := (entries.filter (fun e => e.isDir && strEndsWith e.name "-work")).map
      (fun e => jsReplaceFirst e.name "-work")
    List.insertionSort (fun a b : String => a ≤ b) names

/-- The descending-mtime order used by `listProjectsInWorkspace`
(comparator `(a, b) => b.lastAccessed - a.lastAccessed`). -/
def projectOrder (a b : ProjectInfo) : Prop := b.lastAccessed ≤ a.lastAccessed

instance : DecidableRel projectOrder := fun a b =>
  inferInstanceAs (Decidable (b.lastAccessed ≤ a.lastAccessed))

instance : IsTotal ProjectInfo projectOrder :=
  ⟨fun a b => Int.le_total b.lastAccessed a.lastAccessed⟩

instance : IsTrans ProjectInfo projectOrder :=
  ⟨fun _ _ _ hab hbc => le_trans hbc hab⟩

/-- `listProjectsInWorkspace`: on a failed `readdir` return `[]`;
otherwise stat each directory entry (entries failing to stat are dropped,
the others keep their mtime) and sort descending by mtime. -/
def listProjectsCore (workspacePath : String) (rd : Option (List DirEnt))
    (statMtime : String → Option Int) : List ProjectInfo :=
  match rd with
  | none => []
  | some entries =>
    let projects := (entries.filter (fun e => e.isDir)).filterMap (fun e =>
      (statMtime (workspacePath ++ "/" ++ e.name)).map (fun t =>
        { name := e.name, path := workspacePath ++ "/" ++ e.name, lastAccessed := t }))
    List.insertionSort projectOrder projects

theorem dropLead_eq : ∀ (p s r : List Char), dropLead p s = some r → s = p ++ r
  | [], s, r, h => by
    simp only [dropLead, Option.some.injEq] at h
    simpa using h
  | p :: ps, [], r, h => by simp [dropLead] at h
  | p :: ps, c :: cs, r, h => by
    simp only [dropLead] at h
    by_cases hpc : p = c
    · rw [if_pos hpc] at h
      have := dropLead_eq ps cs r h
      simp [hpc, this]
    · rw [if_neg hpc] at h
      exact absurd h (by simp)

theorem splitFirstOcc_eq :
    ∀ (s pat pre suf : List Char), splitFirstOcc pat s = some (pre, suf) →
      s = pre ++ pat ++ suf
  | [], pat, pre, suf, h => by
    simp only [splitFirstOcc] at h
    cases hd : dropLead pat [] with
    | none => rw [hd] at h; exact absurd h (by simp)
    | some rest =>
      rw [hd] at h
      have he := dropLead_eq pat [] rest hd
      simp only [Option.some.injEq, Prod.mk.injEq] at h
      obtain ⟨h1, h2⟩ := h
      subst h1; subst h2
      simpa using he
  | c :: cs, pat, pre, suf, h => by
    simp only [splitFirstOcc] at h
    cases hd : dropLead pat (c :: cs) with
    | some rest =>
      rw [hd] at h
      have he := dropLead_eq pat (c :: cs) rest hd
      simp only [Option.some.injEq, Prod.mk.injEq] at h
      obtain ⟨h1, h2⟩ := h
      subst h1; subst h2
      simpa using he
    | none =>
      rw [hd] at h
      cases hs : splitFirstOcc pat cs with
      | none => rw [hs] at h; exact absurd h (by simp)
      | some pr =>
        obtain ⟨pre2, suf2⟩ := pr
        rw [hs] at h
        have he := splitFirstOcc_eq cs pat pre2 suf2 hs
        simp only [Option.some.injEq, Prod.mk.injEq] at h
        obtain ⟨h1, h2⟩ := h
        subst h2
        rw [← h1]
        simp [he]

/-- The logical workspace name exactly as the spec words it: a directory
name ending in `-work` has the TRAILING suffix stripped and nothing else
changed. -/
def specStripSuffix (s : String) : String :=
  if strEndsWith s "-work" then String.mk (s.data.take (s.data.length - 5)) else s

/-- C1 counterexample: for the directory name `my-work-stuff-work` the code
removes the FIRST occurrence of `-work` (yielding `my-stuff-work`), so the
suffix-stripped logical name `my-work-stuff` claimed by the spec is not
returned. -/
theorem listWorkspaces_not_suffix_strip :
    listWorkspacesCore (some [{ name := "my-work-stuff-work", isDir := true }]) =
      ["my-stuff-work"] ∧
    specStripSuffix "my-work-stuff-work" = "my-work-stuff" ∧
    specStripSuffix "my-work-stuff-work" ∉
      listWorkspacesCore (some [{ name := "my-work-stuff-work", isDir := true }]) := by
  refine ⟨?_, ?_, ?_⟩ <;> decide

/-- C1 (amended): `listWorkspaces` returns, for every kept directory entry,
the name with the FIRST occurrence of `-work` removed; whenever the first
occurrence of `-work` in the name is the trailing one, this coincides with
the spec's suffix-stripping (for other names the two readings may
disagree, as the counterexample shows, though not always). -/
theorem listWorkspaces_strips_first_occurrence :
    (∀ (entries : List DirEnt) (e : DirEnt), e ∈ entries → e.isDir = true →
      strEndsWith e.name "-work" = true →
      jsReplaceFirst e.name "-work" ∈ listWorkspacesCore (some entries)) ∧
    (∀ (s : String) (pre : List Char),
      splitFirstOcc ("-work".data) s.data = some (pre, []) →
      jsReplaceFirst s "-work" = specStripSuffix s) := by
  constructor
  · intro entries e h1 h2 h3
    simp only [listWorkspacesCore, List.mem_insertionSort]
    exact List.mem_map_of_mem _ (List.mem_filter.2 ⟨h1, by simp [h2, h3]⟩)
  · intro s pre h
    have hs : s.data = pre ++ "-work".data := by
      simpa using splitFirstOcc_eq s.data "-work".data pre [] h
    have hrep : jsReplaceFirst s "-work" = String.mk pre := by
      simp [jsReplaceFirst, h]
    have hsuffix : strEndsWith s "-work" = true := by
      simp [strEndsWith, hs]
    have hlen : s.data.length = pre.length + 5 := by
      rw [hs, List.length_append]
      rfl
    rw [hrep, specStripSuffix, if_pos hsuffix, hlen, Nat.add_sub_cancel, hs,
      List.take_left]

/-- Witness for the amended C1 at a concrete input (`client-work`), where
the two readings agree. -/
theorem listWorkspaces_strips_first_occurrence_witness :
    jsReplaceFirst "client-work" "-work" ∈
      listWorkspacesCore (some [{ name := "client-work", isDir := true }]) ∧
    jsReplaceFirst "client-work" "-work" = specStripSuffix "client-work" := by
  refine ⟨listWorkspaces_strips_first_occurrence.1
      [{ name := "client-work", isDir := true }] { name := "client-work", isDir := true }
      (by decide) (by decide) (by decide),
    listWorkspaces_strips_first_occurrence.2 "client-work" "client".data (by decide)⟩

/-- C7: `listProjectsInWorkspace` output is always sorted non-increasing by
modification time (each element's `lastAccessed` is at least the next
one's), and `listWorkspaces` output is always lexicographically sorted
ascending — over every possible readdir/stat outcome. -/
theorem listings_always_sorted :
    (∀ (wp : String) (rd : Option (List DirEnt)) (statM : String → Option Int),
      (listProjectsCore wp rd statM).Sorted projectOrder) ∧
    (∀ rd : Option (List DirEnt),
      (listWorkspacesCore rd).Sorted (fun a b : String => a ≤ b)) := by
  constructor
  · intro wp rd statM
    cases rd with
    | none => exact List.sorted_nil
    | some entries => exact List.sorted_insertionSort projectOrder _
  · intro rd
    cases rd with
    | none => exact List.sorted_nil
    | some entries => exact List.sorted_insertionSort _ _

/-- C9: a failed `readdir` yields the empty listing (not an error); a
successfully stat'd directory entry is always in the result (a failing
sibling never aborts the batch); and everything in the result comes from a
directory entry with a successful stat. -/
theorem listProjects_stat_isolation :
    (∀ (wp : String) (statM : String → Option Int), listProjectsCore wp none statM = []) ∧
    (∀ (wp : String) (entries : List DirEnt) (statM : String → Option Int)
        (e : DirEnt) (t : Int), e ∈ entries → e.isDir = true →
      statM (wp ++ "/" ++ e.name) = some t →
      ({ name := e.name, path := wp ++ "/" ++ e.name, lastAccessed := t } : ProjectInfo) ∈
        listProjectsCore wp (some entries) statM) ∧
    (∀ (wp : String) (entries : List DirEnt) (statM : String → Option Int)
        (p : ProjectInfo), p ∈ listProjectsCore wp (some entries) statM →
      ∃ e, e ∈ entries ∧ e.isDir = true ∧ p.name = e.name ∧
        p.path = wp ++ "/" ++ e.name ∧ statM (wp ++ "/" ++ e.name) = some p.lastAccessed) := by
  refine ⟨fun wp statM => rfl, fun wp entries statM e t h1 h2 h3 => ?_, fun wp entries statM p hp => ?_⟩
  · simp only [listProjectsCore, List.mem_insertionSort]
    exact List.mem_filterMap.2 ⟨e, List.mem_filter.2 ⟨h1, by simp [h2]⟩, by simp [h3]⟩
  · simp only [listProjectsCore, List.mem_insertionSort, List.mem_filterMap] at hp
    obtain ⟨e, he, hmap⟩ := hp
    obtain ⟨he1, he2⟩ := List.mem_filter.1 he
    obtain ⟨t, ht, hpt⟩ := Option.map_eq_some'.1 hmap
    refine ⟨e, he1, by simpa using he2, ?_, ?_, ?_⟩ <;> rw [← hpt] <;> simpa using ht

/-- Witness for C9 at a concrete input: of two entries, one stat fails and
only that one is dropped. -/
theorem listProjects_stat_isolation_witness :
    ({ name := "b", path := "/w/client-work/b", lastAccessed := 3 } : ProjectInfo) ∈
      listProjectsCore "/w/client-work"
        (some [{ name := "a", isDir := true }, { name := "b", isDir := true }])
        (fun p => if p = "/w/client-work/b" then some 3 else none) := by
  exact listProjects_stat_isolation.2.1 "/w/client-work"
    [{ name := "a", isDir := true }, { name := "b", isDir := true }]
    (fun p => if p = "/w/client-work/b" then some 3 else none)
    { name := "b", isDir := true } 3 (by decide) (by decide) (by simp)

/-! ## Config get/set (`getConfigValue` / `setConfigValue` in
`src/index.ts`)

Loading and saving the JSON config file are modelled as the identity
round-trip on the `Config` record (spec §8 round-trip property), so the
two invocations of a set-then-get sequence compose directly. -/

structure Config where
  workspace : String
  ide : String
  lastProjectPath : Option String
deriving DecidableEq

/-- JS `String.prototype.trim`, modelled over the character list (leading
and trailing whitespace removed). -/
def jsTrim (s : String) : String :=
  String.mk (((s.data.dropWhile Char.isWhitespace).reverse.dropWhile Char.isWhitespace).reverse)

/-- The dynamic field lookup `this.config[key]`: `none` models JS
`undefined` (an unknown key, or `lastProjectPath` while unset). -/
def configIndex (cfg : Config) : String → Option String
  | "workspace" => some cfg.workspace
  | "ide" => some cfg.ide
  | "lastProjectPath" => cfg.lastProjectPath
  | _ => none

/-- `Object.keys(this.config)` for a persisted config: JSON serialization
drops an `undefined` `lastProjectPath`, so the key list carries it only
when set. -/
def configKeys (cfg : Config) : List String :=
  ["workspace", "ide"] ++
    (match cfg.lastProjectPath with | some _ => ["lastProjectPath"] | none => [])

structure CmdResult where
  exitCode : Int
  stdout : List String
  stderr : List String
deriving DecidableEq

/-- `getConfigValue`: print the dynamically looked-up field value, or
report an unknown key (exit 1) listing the available keys. -/
def getConfigValue (cfg : Config) (key : String) : CmdResult :=
  match configIndex cfg key with
  | none =>
    { exitCode := 1, stdout := [],
      stderr := ["Config key " ++ key ++ " not found.",
                 "Available keys: " ++ String.intercalate ", " (configKeys cfg)] }
  | some v => { exitCode := 0, stdout := [v], stderr := [] }

/-- JS `keyValue.split("=")` over the character list. -/
def splitOnEqChars : List Char → List (List Char)
  | [] => [[]]
  | c :: rest =>
    if c = '=' then [] :: splitOnEqChars rest
    else
      match splitOnEqChars rest with
      | [] => [[c]]
      | g :: gs => (c :: g) :: gs

/-- JS `valueParts.join("=")` over character lists. -/
def joinEqChars : List (List Char) → List Char
  | [] => []
  | g :: gs =>
    match gs with
    | [] => g
    | _ :: _ => g ++ '=' :: joinEqChars gs

structure SetResult where
  cfg : Config
  exitCode : Int
  stdout : List String
  stderr : List String
deriving DecidableEq

/-- `setConfigValue`: split `key=value` on the first `=` (the remaining
parts are re-joined with `=`, so values may contain `=`); reject a missing
`=` or empty key (usage), an unknown key, or a value with empty trim;
otherwise store the trimmed value and persist. -/
def setConfigValue (cfg : Config) (keyValue : String) : SetResult :=
  match splitOnEqChars keyValue.data with
  | [] =>
    { cfg := cfg, exitCode := 1, stdout := [],
      stderr := ["Usage: wrk config --set <key>=<value>"] }
  | keyChars :: valueParts =>
    let key := String.mk keyChars
    if key = "" ∨ valueParts = [] then
      { cfg := cfg, exitCode := 1, stdout := [],
        stderr := ["Usage: wrk config --set <key>=<value>"] }
    else
      let value := String.mk (joinEqChars valueParts)
      if ¬(key = "workspace" ∨ key = "ide") then
        { cfg := cfg, exitCode := 1, stdout := [],
          stderr := ["Invalid config key " ++ key ++ ". Available keys: workspace, ide"] }
      else if jsTrim value = "" then
        { cfg := cfg, exitCode := 1, stdout := [],
          stderr := ["Value for " ++ key ++ " cannot be empty"] }
      else
        let cfg2 := if key = "workspace" then { cfg with workspace := jsTrim value }
                    else { cfg with ide := jsTrim value }
        { cfg := cfg2, exitCode := 0,
          stdout := ["Updated " ++ key ++ " to: " ++ jsTrim value], stderr := [] }

theorem splitOnEqChars_ne_nil : ∀ l : List Char, splitOnEqChars l ≠ []
  | [] => by simp [splitOnEqChars]
  | c :: rest => by
    simp only [splitOnEqChars]
    split
    · simp
    · cases h : splitOnEqChars rest <;> simp

theorem joinEq_split : ∀ l : List Char, joinEqChars (splitOnEqChars l) = l
  | [] => rfl
  | c :: rest => by
    have IH := joinEq_split rest
    simp only [splitOnEqChars]
    by_cases hc : c = '='
    · rw [if_pos hc]
      cases hs : splitOnEqChars rest with
      | nil => exact absurd hs (splitOnEqChars_ne_nil rest)
      | cons g gs =>
        rw [hs] at IH
        subst hc
        simpa [joinEqChars] using IH
    · rw [if_neg hc]
      cases hs : splitOnEqChars rest with
      | nil => exact absurd hs (splitOnEqChars_ne_nil rest)
      | cons g gs =>
        rw [hs] at IH
        cases gs with
        | nil => simpa [joinEqChars] using IH
        | cons g2 gs2 => simpa [joinEqChars] using IH

theorem splitOnEq_append (k v : List Char) (hk : '=' ∉ k) :
    splitOnEqChars (k ++ '=' :: v) = k :: splitOnEqChars v := by
  induction k with
  | nil => simp [splitOnEqChars]
  | cons c cs ih =>
    have hc : c ≠ '=' := fun h => hk (by simp [h])
    have hcs : '=' ∉ cs := fun h => hk (List.mem_cons_of_mem _ h)
    rw [List.cons_append]
    simp only [splitOnEqChars, if_neg hc]
    rw [ih hcs]

/-- C5 counterexample: `lastProjectPath` is one of the config's fields,
yet `config --get lastProjectPath` reports exit code 1 (key reported as
not found) when the field is unset, because the dynamic lookup yields
`undefined`. -/
theorem getConfig_lastProjectPath_unset_errors :
    (getConfigValue { workspace := "/w", ide := "cursor", lastProjectPath := none }
      "lastProjectPath").exitCode = 1 ∧
    (getConfigValue { workspace := "/w", ide := "cursor", lastProjectPath := none }
      "lastProjectPath").stdout = [] := by
  exact ⟨rfl, rfl⟩

/-- C5 (amended): `config --get` succeeds (exit 0) exactly when the
dynamic field lookup is defined — always for `workspace` and `ide`, for
`lastProjectPath` only when it is set; it prints the field's value on
success, and on any other key (or `lastProjectPath` while unset) reports
exit 1 listing the available keys. -/
theorem getConfigValue_exact (cfg : Config) (key : String) :
    ((getConfigValue cfg key).exitCode = 0 ↔
      (key = "workspace" ∨ key = "ide" ∨
       (key = "lastProjectPath" ∧ cfg.lastProjectPath ≠ none))) ∧
    (key = "workspace" → (getConfigValue cfg key).stdout = [cfg.workspace]) ∧
    (key = "ide" → (getConfigValue cfg key).stdout = [cfg.ide]) ∧
    ((getConfigValue cfg key).exitCode ≠ 0 →
      (getConfigValue cfg key).exitCode = 1 ∧
      (getConfigValue cfg key).stderr =
        ["Config key " ++ key ++ " not found.",
         "Available keys: " ++ String.intercalate ", " (configKeys cfg)]) := by
  by_cases h1 : key = "workspace"
  · subst h1
    simp [getConfigValue, configIndex]
  by_cases h2 : key = "ide"
  · subst h2
    simp [getConfigValue, configIndex]
  by_cases h3 : key = "lastProjectPath"
  · subst h3
    cases hlp : cfg.lastProjectPath with
    | none => simp [getConfigValue, configIndex, hlp]
    | some v => simp [getConfigValue, configIndex, hlp]
  · have hidx : configIndex cfg key = none := by
      rw [configIndex.eq_def]
      split <;> simp_all
    simp [getConfigValue, hidx, h1, h2, h3]

/-- Witness for the amended C5: a concrete `--get workspace` succeeds and
prints the stored value. -/
theorem getConfigValue_exact_witness :
    (getConfigValue { workspace := "/w", ide := "cursor", lastProjectPath := none }
      "workspace").stdout = ["/w"] :=
  (getConfigValue_exact { workspace := "/w", ide := "cursor", lastProjectPath := none }
    "workspace").2.1 rfl

/-- C6: for `key ∈ {workspace, ide}` and any value whose trimmed form is
non-empty, `config --set key=value` succeeds and a following
`config --get key` prints exactly the trimmed value (the split is on the
first `=`, so the value may itself contain `=`); `--set` rejects — exit 1
with the config unchanged — every other (`=`-free) key and every value
whose trimmed form is empty. -/
theorem setThenGet_roundtrip (cfg : Config) (key value : String) :
    ((key = "workspace" ∨ key = "ide") → jsTrim value ≠ "" →
      (setConfigValue cfg (key ++ "=" ++ value)).exitCode = 0 ∧
      getConfigValue (setConfigValue cfg (key ++ "=" ++ value)).cfg key =
        { exitCode := 0, stdout := [jsTrim value], stderr := [] }) ∧
    ('=' ∉ key.data → ¬(key = "workspace" ∨ key = "ide") →
      (setConfigValue cfg (key ++ "=" ++ value)).cfg = cfg ∧
      (setConfigValue cfg (key ++ "=" ++ value)).exitCode = 1) ∧
    ('=' ∉ key.data → jsTrim value = "" →
      (setConfigValue cfg (key ++ "=" ++ value)).cfg = cfg ∧
      (setConfigValue cfg (key ++ "=" ++ value)).exitCode = 1) := by
  have hdata : (key ++ "=" ++ value).data = key.data ++ '=' :: value.data := by
    rw [String.data_append, String.data_append]
    simp
  have hjoin : String.mk (joinEqChars (splitOnEqChars value.data)) = value := by
    rw [joinEq_split]
  refine ⟨fun hkey hv => ?_, fun hk hnv => ?_, fun hk hv => ?_⟩
  · have hkeq : '=' ∉ key.data := by
      rcases hkey with h | h <;> subst h <;> decide
    have hsplit : splitOnEqChars (key ++ "=" ++ value).data =
        key.data :: splitOnEqChars value.data := by
      rw [hdata]; exact splitOnEq_append _ _ hkeq
    have hkne : key ≠ "" := by
      rcases hkey with h | h <;> subst h <;> decide
    have hset : setConfigValue cfg (key ++ "=" ++ value) =
        { cfg := (if key = "workspace" then { cfg with workspace := jsTrim value }
                  else { cfg with ide := jsTrim value }),
          exitCode := 0,
          stdout := ["Updated " ++ key ++ " to: " ++ jsTrim value], stderr := [] } := by
      rw [setConfigValue.eq_def, hsplit]
      simp only []
      rw [if_neg (by simp [hkne, splitOnEqChars_ne_nil value.data])]
      rw [if_neg (not_not.mpr hkey)]
      rw [hjoin, if_neg hv]
    rw [hset]
    rcases hkey with h | h <;> subst h
    · simp [getConfigValue, configIndex]
    · simp [getConfigValue, configIndex]
  · have hsplit : splitOnEqChars (key ++ "=" ++ value).data =
        key.data :: splitOnEqChars value.data := by
      rw [hdata]; exact splitOnEq_append _ _ hk
    by_cases hke : key = ""
    · rw [setConfigValue.eq_def, hsplit]
      simp [hke]
    · rw [setConfigValue.eq_def, hsplit]
      simp only []
      rw [if_neg (by simp [hke, splitOnEqChars_ne_nil value.data])]
      rw [if_pos hnv]
      exact ⟨rfl, rfl⟩
  · have hsplit : splitOnEqChars (key ++ "=" ++ value).data =
        key.data :: splitOnEqChars value.data := by
      rw [hdata]; exact splitOnEq_append _ _ hk
    by_cases hke : key = ""
    · rw [setConfigValue.eq_def, hsplit]
      simp [hke]
    · by_cases hval : key = "workspace" ∨ key = "ide"
      · rw [setConfigValue.eq_def, hsplit]
        simp only []
        rw [if_neg (by simp [hke, splitOnEqChars_ne_nil value.data])]
        rw [if_neg (not_not.mpr hval)]
        rw [hjoin, if_pos hv]
        exact ⟨rfl, rfl⟩
      · rw [setConfigValue.eq_def, hsplit]
        simp only []
        rw [if_neg (by simp [hke, splitOnEqChars_ne_nil value.data])]
        rw [if_pos hval]
        exact ⟨rfl, rfl⟩

/-- Witness for C6: setting `ide` to `" vim "` stores and reads back
`"vim"`; setting an unknown key and setting an all-blank value are both
rejected with the config unchanged. -/
theorem setThenGet_roundtrip_witness :
    ((setConfigValue { workspace := "/w", ide := "cursor", lastProjectPath := none }
        ("ide" ++ "=" ++ " vim ")).exitCode = 0 ∧
      getConfigValue (setConfigValue { workspace := "/w", ide := "cursor", lastProjectPath := none }
        ("ide" ++ "=" ++ " vim ")).cfg "ide" =
        { exitCode := 0, stdout := [jsTrim " vim "], stderr := [] }) ∧
    ((setConfigValue { workspace := "/w", ide := "cursor", lastProjectPath := none }
        ("theme" ++ "=" ++ "dark")).cfg =
        { workspace := "/w", ide := "cursor", lastProjectPath := none } ∧
      (setConfigValue { workspace := "/w", ide := "cursor", lastProjectPath := none }
        ("theme" ++ "=" ++ "dark")).exitCode = 1) ∧
    ((setConfigValue { workspace := "/w", ide := "cursor", lastProjectPath := none }
        ("ide" ++ "=" ++ "  ")).cfg =
        { workspace := "/w", ide := "cursor", lastProjectPath := none } ∧
      (setConfigValue { workspace := "/w", ide := "cursor", lastProjectPath := none }
        ("ide" ++ "=" ++ "  ")).exitCode = 1) :=
  ⟨(setThenGet_roundtrip _ "ide" " vim ").1 (Or.inr rfl) (by decide),
   (setThenGet_roundtrip _ "theme" "dark").2.1 (by decide) (by decide),
   (setThenGet_roundtrip _ "ide" "  ").2.2 (by decide) (by decide)⟩

/-! ## Application flows (`WrkCLI` in `src/index.ts`)

The stateful flows are embedded as explicit state passing over `St`
together with an event trace.  External collaborators are modelled as
inputs carried in the state: prompt answers are consumed from lists
(an exhausted list yields the prompt's default), IDE resolution and the
spawned editor's exit code are oracles.  `mkdir -p` is modelled as adding
the named directory (faithful whenever the parent exists, as in every
scenario below).  `expandHomePath`/`resolve` are the identity on the
absolute, marker-free roots used here.  Quote punctuation inside messages
is elided. -/

inductive Ev where
  | promptConfirm (message : String) (answer : Bool)
  | promptText (message : String) (answer : String)
  | promptChoice (message : String) (chosen : String)
  | mkdirP (path : String)
  | saveConfig (cfg : Config)
  | resolveIde (cmd : String) (found : Option String)
  | spawnIde (exe arg : String) (exitCode : Int)
  | printOut (s : String)
  | printErr (s : String)
deriving DecidableEq

structure St where
  dirs : List String
  files : List String
  mtimeOf : String → Int
  cfg : Config
  savedCfg : Option Config
  exitCode : Int
  confirms : List Bool
  texts : List String
  choices : List Nat
  ideResolver : String → Option String
  spawnExit : Int

/-- `stat` succeeds with `isDirectory()` true. -/
def statDir (st : St) (p : String) : Bool := st.dirs.contains p

/-- `stat` succeeds (directory or plain file). -/
def statAny (st : St) (p : String) : Bool := st.dirs.contains p || st.files.contains p

def askConfirm (st : St) : Bool × St :=
  match st.confirms with
  | [] => (true, st)
  | b :: rest => (b, { st with confirms := rest })

def askText (st : St) : String × St :=
  match st.texts with
  | [] => ("", st)
  | s :: rest => (s, { st with texts := rest })

def askChoice (st : St) : Nat × St :=
  match st.choices with
  | [] => (0, st)
  | i :: rest => (i, { st with choices := rest })

/-- `getWorkspacePath`: `join(resolve(expandHomePath(config.workspace)), name + "-work")`. -/
def getWorkspacePath (cfg : Config) (workspaceName : String) : String :=
  cfg.workspace ++ "/" ++ workspaceName ++ "-work"

/-- `ensureWorkspaceExists`: prompt-to-create a missing (or non-directory)
workspace directory; declining merely sets `exitCode = 0` and RETURNS from
the helper — the caller keeps running. -/
def ensureWorkspaceExists (st : St) (workspaceName : String) : St × List Ev :=
  let workspacePath := getWorkspacePath st.cfg workspaceName
  if statDir st workspacePath then (st, [])
  else
    let (shouldCreate, st1) := askConfirm st
    if shouldCreate then
      ({ st1 with dirs := workspacePath :: st1.dirs },
       [.promptConfirm ("Workspace " ++ workspaceName ++ " not found. Create it?") true,
        .mkdirP workspacePath,
        .printOut ("Created workspace " ++ workspaceName ++ " at " ++ workspacePath)])
    else
      ({ st1 with exitCode := 0 },
       [.promptConfirm ("Workspace " ++ workspaceName ++ " not found. Create it?") false])

/-- The name of `p` as an immediate child of `parent`, when it is one. -/
def childName (parent p : String) : Option String :=
  match dropLead (parent.data ++ ['/']) p.data with
  | some rest => if rest ≠ [] ∧ '/' ∉ rest then some (String.mk rest) else none
  | none => none

def childNames (paths : List String) (parent : String) : List String :=
  paths.filterMap (childName parent)

/-- `readdir(p, { withFileTypes: true })` derived from the filesystem
state: fails when `p` is not a directory. -/
def readdirApp (st : St) (p : String) : Option (List DirEnt) :=
  if statDir st p then
    some ((childNames st.dirs p).map (fun n => { name := n, isDir := true }) ++
          (childNames st.files p).map (fun n => { name := n, isDir := false }))
  else none

def statMtimeApp (st : St) (p : String) : Option Int :=
  if statAny st p then some (st.mtimeOf p) else none

/-- `listProjectsInWorkspace` against the concrete filesystem state. -/
def listProjectsApp (st : St) (workspaceName : String) : List ProjectInfo :=
  listProjectsCore (getWorkspacePath st.cfg workspaceName)
    (readdirApp st (getWorkspacePath st.cfg workspaceName)) (statMtimeApp st)

/-- `openProject`: verify the path is an existing directory; under dry-run
only report; otherwise persist `lastProjectPath` FIRST, then resolve the
IDE command and spawn it, propagating a nonzero editor exit code. -/
def openProject (st : St) (projectPath : String) (flags : Option Flags) : St × List Ev :=
  if !(statDir st projectPath) then
    ({ st with exitCode := 1 }, [.printErr ("Project not found at " ++ projectPath)])
  else if (flags.map Flags.dryRun).getD false then
    (st, [.printOut ("Would open project: " ++ projectPath),
          .printOut ("Would use IDE: " ++ jsOrStr (flags.bind Flags.ide) st.cfg.ide)])
  else
    let cfg2 := { st.cfg with lastProjectPath := some projectPath }
    let st1 := { st with cfg := cfg2, savedCfg := some cfg2 }
    let ideToUse := jsOrStr (flags.bind Flags.ide) st1.cfg.ide
    match st1.ideResolver ideToUse with
    | some exe =>
      if st1.spawnExit ≠ 0 then
        ({ st1 with exitCode := st1.spawnExit },
         [.saveConfig cfg2, .resolveIde ideToUse (some exe),
          .spawnIde exe projectPath st1.spawnExit,
          .printErr ("IDE exited with code " ++ toString st1.spawnExit)])
      else
        (st1, [.saveConfig cfg2, .resolveIde ideToUse (some exe),
               .spawnIde exe projectPath st1.spawnExit])
    | none =>
      ({ st1 with exitCode := 1 },
       [.saveConfig cfg2, .resolveIde ideToUse none,
        .printErr ("IDE command " ++ ideToUse ++
          " not found. Please install it or run wrk config --set ide=<your-ide> to set a different IDE.")])

/-- `selectProjectFromList`: inquirer always returns one of the offered
choices, modelled by an index; the empty list throws (caught by `run`,
printing the message with exit 1), and an out-of-range model index is
totalized the same way. -/
def selectProjectFromList (st : St) (projects : List ProjectInfo) :
    Option String × St × List Ev :=
  match projects with
  | [] => (none, { st with exitCode := 1 }, [.printErr "No projects available"])
  | _ :: _ =>
    let (i, st1) := askChoice st
    match projects.get? i with
    | some pr => (some pr.path, st1, [.promptChoice "Select a project:" pr.path])
    | none => (none, { st1 with exitCode := 1 }, [.printErr "No projects available"])

/-- `createProjectInWorkspace`: interactive creation — ensure the
workspace, prompt for a (trimmed) project name, fail if it exists,
otherwise create and open it. -/
def createProjectInWorkspace (st : St) (workspaceName : String) : St × List Ev :=
  let (st1, ev1) := ensureWorkspaceExists st workspaceName
  let (raw, st2) := askText st1
  let projectName := jsTrim raw
  let ev2 := [Ev.promptText ("Enter project name for " ++ workspaceName ++ ":") projectName]
  let projectPath := getWorkspacePath st2.cfg workspaceName ++ "/" ++ projectName
  if statAny st2 projectPath then
    ({ st2 with exitCode := 1 },
     ev1 ++ ev2 ++ [.printErr ("Project " ++ projectName ++ " already exists in " ++ workspaceName)])
  else
    let st3 := { st2 with dirs := projectPath :: st2.dirs }
    let (st4, ev4) := openProject st3 projectPath none
    (st4, ev1 ++ ev2 ++
      [.mkdirP projectPath,
       .printOut ("Created project " ++ projectName ++ " at " ++ projectPath)] ++ ev4)

/-- `createProjectNonInteractive`: ensure the workspace, fail if the
project exists, then either report only (dry-run) or create and open. -/
def createProjectNonInteractive (st : St) (workspaceName projectName : String)
    (flags : Option Flags) : St × List Ev :=
  let (st1, ev1) := ensureWorkspaceExists st workspaceName
  let projectPath := getWorkspacePath st1.cfg workspaceName ++ "/" ++ projectName
  if statAny st1 projectPath then
    ({ st1 with exitCode := 1 },
     ev1 ++ [.printErr ("Project " ++ projectName ++ " already exists in " ++ workspaceName)])
  else if (flags.map Flags.dryRun).getD false then
    (st1, ev1 ++ [.printOut ("Would create project: " ++ projectPath)])
  else
    let st2 := { st1 with dirs := projectPath :: st1.dirs }
    let (st3, ev3) := openProject st2 projectPath flags
    (st3, ev1 ++
      [.mkdirP projectPath,
       .printOut ("Created project " ++ projectName ++ " at " ++ projectPath)] ++ ev3)

/-- `openWorkspace`: ensure the workspace (declining the creation prompt
does NOT stop the flow), list its projects, then branch on emptiness and
the `--project` flag. -/
def openWorkspace (st : St) (workspaceName : String) (flags : Option Flags) : St × List Ev :=
  let (st1, ev1) := ensureWorkspaceExists st workspaceName
  let projects := listProjectsApp st1 workspaceName
  if projects.isEmpty then
    if !(jsFalsy (flags.bind Flags.project)) then
      ({ st1 with exitCode := 1 },
       ev1 ++ [.printErr ("No projects found in " ++ workspaceName ++
         ". Cannot open project " ++ (flags.bind Flags.project).getD "" ++ ".")])
    else
      let (shouldCreate, st2) := askConfirm st1
      if shouldCreate then
        let (st3, ev3) := createProjectInWorkspace st2 workspaceName
        (st3, ev1 ++ [.promptConfirm ("No projects found in " ++ workspaceName ++
          ". Create a new project?") true] ++ ev3)
      else
        (st2, ev1 ++ [.promptConfirm ("No projects found in " ++ workspaceName ++
          ". Create a new project?") false])
  else if !(jsFalsy (flags.bind Flags.project)) then
    let target := (flags.bind Flags.project).getD ""
    match projects.find? (fun p => decide (p.name = target)) with
    | some pr =>
      let (st2, ev2) := openProject st1 pr.path flags
      (st2, ev1 ++ ev2)
    | none =>
      ({ st1 with exitCode := 1 },
       ev1 ++ [.printErr ("Project " ++ target ++ " not found in " ++ workspaceName ++ "."),
               .printErr ("Available projects: " ++
                 String.intercalate ", " (projects.map ProjectInfo.name))])
  else
    match selectProjectFromList st1 projects with
    | (some path, st2, ev2) =>
      let (st3, ev3) := openProject st2 path flags
      (st3, ev1 ++ ev2 ++ ev3)
    | (none, st2, ev2) => (st2, ev1 ++ ev2)

def sampleCfg : Config := { workspace := "/w", ide := "cursor", lastProjectPath := none }

/-- A small concrete world: workspace root `/w` exists, nothing else;
prompt answers supplied per scenario. -/
def baseSt (confirms : List Bool) : St :=
  { dirs := ["/w"], files := [], mtimeOf := fun _ => 0, cfg := sampleCfg,
    savedCfg := some sampleCfg, exitCode := 0, confirms := confirms, texts := [],
    choices := [], ideResolver := fun _ => none, spawnExit := 0 }

/-- C3: with the target workspace directory missing and the user declining
the creation prompt, the invocation does NOT stop after the prompt:
`ensureWorkspaceExists` merely sets `exitCode = 0` and returns from the
helper, and `openWorkspace` keeps running — it lists the (empty) project
set of the never-created directory and issues the project-creation
prompt.  The exit code is 0 once that second prompt is also declined, but
further actions demonstrably occur. -/
theorem openWorkspace_decline_still_prompts :
    (openWorkspace (baseSt [false, false]) "client" none).2 =
      [Ev.promptConfirm "Workspace client not found. Create it?" false,
       Ev.promptConfirm "No projects found in client. Create a new project?" false] ∧
    (openWorkspace (baseSt [false, false]) "client" none).1.exitCode = 0 ∧
    (openWorkspace (baseSt [false, false]) "client" none).1.dirs = ["/w"] :=
  ⟨rfl, rfl, rfl⟩

/-- C4 counterexample: in a filesystem state where the workspace directory
itself is missing (project also missing) and the user accepts the
workspace-creation prompt, `create client app --dry-run` still CREATES the
workspace directory — a filesystem mutation — before printing the
would-create message. -/
theorem createDryRun_mkdirs_missing_workspace :
    Ev.mkdirP "/w/client-work" ∈
      (createProjectNonInteractive (baseSt [true]) "client" "app"
        (some { dryRun := true })).2 ∧
    (createProjectNonInteractive (baseSt [true]) "client" "app"
      (some { dryRun := true })).1.dirs = ["/w/client-work", "/w"] ∧
    (baseSt [true]).dirs = ["/w"] :=
  ⟨by decide, rfl, rfl⟩

/-- C4 (amended): when the target workspace directory already exists and
the target project directory does not, `create <ws> <proj> --dry-run`
prints the would-create message and performs no filesystem mutation, no
config write, and leaves the exit code untouched. -/
theorem createDryRun_no_mutation (st : St) (workspaceName projectName : String)
    (flags : Option Flags)
    (hdry : (flags.map Flags.dryRun).getD false = true)
    (hws : statDir st (getWorkspacePath st.cfg workspaceName) = true)
    (hproj : statAny st (getWorkspacePath st.cfg workspaceName ++ "/" ++ projectName) = false) :
    (createProjectNonInteractive st workspaceName projectName flags).1.dirs = st.dirs ∧
    (createProjectNonInteractive st workspaceName projectName flags).1.files = st.files ∧
    (createProjectNonInteractive st workspaceName projectName flags).1.savedCfg = st.savedCfg ∧
    (createProjectNonInteractive st workspaceName projectName flags).1.cfg = st.cfg ∧
    (createProjectNonInteractive st workspaceName projectName flags).1.exitCode = st.exitCode ∧
    (createProjectNonInteractive st workspaceName projectName flags).2 =
      [Ev.printOut ("Would create project: " ++
        (getWorkspacePath st.cfg workspaceName ++ "/" ++ projectName))] := by
  simp [createProjectNonInteractive, ensureWorkspaceExists, hws, hproj, hdry]

/-- Witness for the amended C4 at a concrete world where `client-work`
already exists. -/
theorem createDryRun_no_mutation_witness :
    (createProjectNonInteractive { baseSt [] with dirs := ["/w/client-work", "/w"] }
      "client" "app" (some { dryRun := true })).1.dirs = ["/w/client-work", "/w"] ∧
    (createProjectNonInteractive { baseSt [] with dirs := ["/w/client-work", "/w"] }
      "client" "app" (some { dryRun := true })).1.savedCfg = some sampleCfg := by
  have h := createDryRun_no_mutation { baseSt [] with dirs := ["/w/client-work", "/w"] }
    "client" "app" (some { dryRun := true }) rfl (by decide) (by decide)
  exact ⟨h.1, h.2.2.1⟩

/-- C8: in the non-dry-run open-project flow on an existing directory, the
config carrying the path as `lastProjectPath` is persisted BEFORE the IDE
command is resolved and before any spawn: the trace begins with the
`saveConfig` event followed by the `resolveIde` event, and the persisted
config holds the path no matter whether resolution or the launch then
fail. -/
theorem openProject_saves_before_launch (st : St) (projectPath : String) (flags : Option Flags)
    (hdir : statDir st projectPath = true)
    (hdry : (flags.map Flags.dryRun).getD false = false) :
    (openProject st projectPath flags).1.cfg.lastProjectPath = some projectPath ∧
    (openProject st projectPath flags).1.savedCfg =
      some { st.cfg with lastProjectPath := some projectPath } ∧
    (openProject st projectPath flags).2.take 2 =
      [Ev.saveConfig { st.cfg with lastProjectPath := some projectPath },
       Ev.resolveIde (jsOrStr (flags.bind Flags.ide) st.cfg.ide)
         (st.ideResolver (jsOrStr (flags.bind Flags.ide) st.cfg.ide))] := by
  cases hres : st.ideResolver (jsOrStr (flags.bind Flags.ide) st.cfg.ide) with
  | none => simp [openProject, hdir, hdry, hres]
  | some exe =>
    by_cases hz : st.spawnExit = 0
    · simp [openProject, hdir, hdry, hres, hz]
    · simp [openProject, hdir, hdry, hres, hz]

/-- Witness for C8: opening the existing directory `/w` in a world whose
IDE resolver fails still persists `lastProjectPath` first. -/
theorem openProject_saves_before_launch_witness :
    (openProject (baseSt []) "/w" none).1.savedCfg =
      some { sampleCfg with lastProjectPath := some "/w" } ∧
    (openProject (baseSt []) "/w" none).2.take 2 =
      [Ev.saveConfig { sampleCfg with lastProjectPath := some "/w" },
       Ev.resolveIde "cursor" none] := by
  have h := openProject_saves_before_launch (baseSt []) "/w" none (by decide) rfl
  exact ⟨h.2.1, h.2.2⟩

end Wrk
